import Mathlib

/-!
Verification development for the SecureEscrow order-intake backend.

The definitions below are a shallow embedding of the reference server
(`server.js`, v2 variant with payment plan fields): JS numbers are modelled as
exact rationals (`ℚ`), JS strings as `String`, absent form fields as
`Option String`, and the JSON file order store as a list of `Order` records.
Handlers (`POST /submit`, `POST /payments/:orderId/confirm`,
`POST /payments/:orderId/release`) become pure functions from a store to a
result paired with the new store; timestamps and the random order-id /
release-token choices are passed in as explicit parameters.
-/

namespace SecureEscrow

/-- Models the JS idiom `x || d` on an optional string field: `undefined` and
the empty string are falsy, any other string is returned unchanged. -/
def jsOr (x : Option String) (d : String) : String :=
  match x with
  | none => d
  | some s => if s = "" then d else s

/-- Models `String.prototype.trim()`: drops whitespace from both ends. -/
def strTrim (s : String) : String :=
  ⟨((s.data.dropWhile Char.isWhitespace).reverse.dropWhile Char.isWhitespace).reverse⟩

/-- Models `String.prototype.toLowerCase()` (inputs here are ASCII). -/
def strToLower (s : String) : String :=
  ⟨s.data.map Char.toLower⟩

/-- Models `String.prototype.startsWith(pre)`. -/
def strStartsWith (s pre : String) : Bool :=
  pre.data.isPrefixOf s.data

/-- Models the JS template interpolation of a number (a string `${v}`); the
exact float-to-decimal-string algorithm is abstracted (the claims never
inspect the rendered digits, only fixed parts of the surrounding text). -/
def renderNum (q : ℚ) : String :=
  toString q.num ++ (if q.den = 1 then "" else "/" ++ toString q.den)

/-- Models `money(n)` from the source: `Intl.NumberFormat` USD formatting is
abstracted to a dollar marker plus the numeric rendering (the claims never
inspect formatted digits). -/
def money (q : ℚ) : String :=
  "$" ++ renderNum q

/-- Numeric value of a digit string, as in JS decimal parsing:
`digitsVal ['5','0'] = 50`. -/
def digitsVal (l : List Char) : ℕ :=
  l.foldl (fun a c => 10 * a + (c.toNat - 48)) 0

/-- Models `String(x).replace(/[^0-9.]/g,'')` from `toNum`: keep only digits
and dots. -/
def stripNonNumeric (l : List Char) : List Char :=
  l.filter (fun c => c.isDigit || c == '.')

/-- Splits a character list at every `'.'` (the only separator that can
survive `stripNonNumeric`), as `String.prototype.split('.')` would. -/
def splitOnDot : List Char → List (List Char)
  | [] => [[]]
  | c :: rest =>
    let r := splitOnDot rest
    if c = '.' then [] :: r
    else
      match r with
      | [] => [[c]]
      | h :: t => (c :: h) :: t

/-- Models JS `Number()` applied to a string made only of digits and dots:
`"" ↦ 0`, one optional dot splits integer and fractional digits, anything
with two or more dots (or a lone dot) is `NaN`, returned as `none`.
Values are exact rationals; float rounding/overflow is abstracted. -/
def parseNumQ (l : List Char) : Option ℚ :=
  if l = [] then some 0
  else
    match splitOnDot l with
    | [a] => some ((digitsVal a : ℕ) : ℚ)
    | [a, b] =>
      if a = [] ∧ b = [] then none
      else some ((digitsVal a : ℚ) + (digitsVal b : ℚ) / ((10 : ℚ) ^ b.length))
    | _ => none

/-- Models `toNum(x)` from the source:
`Number(String(x||'').replace(/[^0-9.]/g,''))`, with a non-finite result
(`NaN`) replaced by `0`. -/
def toNum (x : Option String) : ℚ :=
  match parseNumQ (stripNonNumeric (jsOr x "").data) with
  | some q => q
  | none => 0

/-- Result of `buildPaymentPlanSummary`: the human summary text, the nullable
computed deposit, and the parsed total price. -/
structure PlanSummary where
  text : String
  calculatedDeposit : Option ℚ
  totalPrice : ℚ
deriving DecidableEq

/-- Core of `buildPaymentPlanSummary` after field coercion: `roleLower`,
`plan` and `ty` are the lower-cased role, payment plan and deposit type, and
`v`, `t` the numeric deposit value and total price. Mirrors the source's
branching: seller text by default; buyer/full; buyer down payment with
`percent` (deposit `t * (v/100)` when `t` is truthy, else `null`) or with a
direct amount (`v || null`, no clamping). -/
def buildPlanCore (roleLower plan ty : String) (v t : ℚ) : PlanSummary :=
  if roleLower = "buyer" then
    if plan = "full" then
      ⟨"Buyer selected full payment", none, t⟩
    else
      if ty = "percent" then
        if t = 0 then
          ⟨"Buyer selected down payment — " ++ renderNum v ++
            "% of total (enter total to compute amount)", none, t⟩
        else
          ⟨"Buyer selected down payment — " ++ renderNum v ++ "% of " ++ money t ++
            " (" ++ money (t * (v / 100)) ++ ")", some (t * (v / 100)), t⟩
      else
        ⟨"Buyer selected down payment — " ++ money v,
          if v = 0 then none else some v, t⟩
  else
    ⟨"Seller initiated transaction", none, t⟩

/-- Models `buildPaymentPlanSummary(o)` on raw form fields: applies the
source's own coercions (`(o.paymentPlan || 'full').toLowerCase()`,
`toNum(o.totalPrice)`, …) and then the core branching. -/
def buildPaymentPlanSummary (role paymentPlan depositType depositValue totalPrice :
    Option String) : PlanSummary :=
  buildPlanCore (strToLower (jsOr role "")) (strToLower (jsOr paymentPlan "full"))
    (strToLower (jsOr depositType "percent")) (toNum depositValue) (toNum totalPrice)

/-- Alphabet used by `genOrderId` for the three leading letters:
`'ABCDEFGHJKLMNPQRSTUVWXYZ'` (24 uppercase letters, `I` and `O` omitted). -/
def orderIdLetters : List Char := "ABCDEFGHJKLMNPQRSTUVWXYZ".data

/-- Digit alphabet used by `genOrderId`: `'0123456789'`. -/
def orderIdDigits : List Char := "0123456789".data

/-- Letter picked by `genOrderId` for a random index (always in range, as
`Math.floor(Math.random()*L.length)` is). -/
def letterAt (i : Fin 24) : Char := orderIdLetters.getD i.val 'A'

/-- Digit picked by `genOrderId` for a random index. -/
def digitAt (i : Fin 10) : Char := orderIdDigits.getD i.val '0'

/-- Models `genOrderId()`: three random letters, a hyphen, six random digits;
the nine random index draws are explicit parameters. -/
def genOrderId (l0 l1 l2 : Fin 24) (d0 d1 d2 d3 d4 d5 : Fin 10) : String :=
  ⟨[letterAt l0, letterAt l1, letterAt l2, '-',
    digitAt d0, digitAt d1, digitAt d2, digitAt d3, digitAt d4, digitAt d5]⟩

/-- Initial status string set by `POST /submit`. -/
def awaitingStatus : String := "Awaiting buyer payment"

/-- Status string set by `POST /payments/:orderId/confirm`. -/
def paidStatus : String := "Buyer paid — awaiting buyer release"

/-- Status string set by `POST /payments/:orderId/release`. -/
def releasedStatus : String := "Funds released to seller"

/-- Position of a status string in the forward chain
`AwaitingPayment → PaymentConfirmed → FundsReleased` (any string outside the
chain ranks lowest). -/
def statusRank (s : String) : ℕ :=
  if s = paidStatus then 1 else if s = releasedStatus then 2 else 0

/-- An order record as persisted by the reference server. `paidAt` and
`releasedAt` are `none` until the corresponding handler stamps them. -/
structure Order where
  orderId : String
  releaseToken : String
  createdAt : String
  role : String
  source : String
  firstName : String
  lastName : String
  email : String
  phone : String
  itemDetails : String
  deliveryNotes : String
  paymentPlan : String
  depositType : String
  depositValue : ℚ
  totalPrice : ℚ
  buyerNotes : String
  calculatedDeposit : Option ℚ
  status : String
  escrowBalance : ℚ
  paidAt : Option String
  releasedAt : Option String
deriving DecidableEq

/-- The JSON order store: the full collection of orders, newest first. -/
structure Store where
  orders : List Order
deriving DecidableEq

/-- Body of `POST /submit`; absent form fields are `none`. -/
structure SubmitBody where
  role : Option String
  source : Option String
  firstName : Option String
  lastName : Option String
  email : Option String
  phone : Option String
  itemDetails : Option String
  deliveryNotes : Option String
  paymentPlan : Option String
  depositType : Option String
  depositValue : Option String
  totalPrice : Option String
  buyerNotes : Option String
deriving DecidableEq

/-- Models the required-field test `!b[k] || String(b[k]).trim()===''`:
the field is missing, or blank after trimming. -/
def missingField (v : Option String) : Bool :=
  match v with
  | none => true
  | some s => strTrim s = ""

/-- The required fields of `POST /submit`, in the order the source checks
them: `['role','source','firstName','lastName','email','phone']`. -/
def reqFields (b : SubmitBody) : List (String × Option String) :=
  [("role", b.role), ("source", b.source), ("firstName", b.firstName),
   ("lastName", b.lastName), ("email", b.email), ("phone", b.phone)]

/-- First required field rejected by the validation loop, if any. -/
def firstMissing (b : SubmitBody) : Option String :=
  ((reqFields b).find? (fun p => missingField p.2)).map Prod.fst

/-- The order record built by `POST /submit` once validation has passed.
`genId`, `tok` and `now` stand for `genOrderId()`, `uuidv4()` and
`new Date().toISOString()`. The plan fields are normalized exactly as in the
source; `buildPlanCore` receives them normalized once (re-applying the
source's coercions to already-normalized values is the identity). -/
def mkOrder (b : SubmitBody) (genId tok now : String) : Order :=
  let paymentPlan := strToLower (jsOr b.paymentPlan "full")
  let depositType := strToLower (jsOr b.depositType "percent")
  let depositValue := toNum b.depositValue
  let totalPrice := toNum b.totalPrice
  let planInfo := buildPlanCore (strToLower (jsOr b.role "")) paymentPlan depositType
      depositValue totalPrice
  { orderId := genId
    releaseToken := tok
    createdAt := now
    role := b.role.getD ""
    source := b.source.getD ""
    firstName := b.firstName.getD ""
    lastName := b.lastName.getD ""
    email := b.email.getD ""
    phone := b.phone.getD ""
    itemDetails := jsOr b.itemDetails ""
    deliveryNotes := jsOr b.deliveryNotes ""
    paymentPlan := paymentPlan
    depositType := depositType
    depositValue := depositValue
    totalPrice := totalPrice
    buyerNotes := strTrim (jsOr b.buyerNotes "")
    calculatedDeposit := planInfo.calculatedDeposit
    status := awaitingStatus
    escrowBalance := 0
    paidAt := none
    releasedAt := none }

/-- Outcome of `POST /submit` as seen by the client. -/
inductive SubmitResult where
  | validationError (msg : String)
  | ok (orderId : String)
deriving DecidableEq

/-- Models `POST /submit`: reject on the first missing required field
(HTTP 400, store untouched), otherwise build the order and `unshift` it onto
the stored collection. -/
def createOrder (st : Store) (b : SubmitBody) (genId tok now : String) :
    SubmitResult × Store :=
  match firstMissing b with
  | some k => (SubmitResult.validationError ("Missing field: " ++ k), st)
  | none => (SubmitResult.ok genId, ⟨mkOrder b genId tok now :: st.orders⟩)

/-- Replaces the first element satisfying `p` by its image under `f`, as the
source's `findIndex` + in-place mutation of `data.orders[idx]` does. -/
def updateFirst (p : α → Bool) (f : α → α) : List α → List α
  | [] => []
  | o :: rest => if p o then f o :: rest else o :: updateFirst p f rest

/-- The in-place mutation performed by the confirm handler on the matched
order: set the paid status, stamp `paidAt`, and re-assign
`escrowBalance = escrowBalance || 0` (the identity on the stored number). -/
def confirmOrder (o : Order) (now : String) : Order :=
  { o with status := paidStatus
           escrowBalance := if o.escrowBalance = 0 then 0 else o.escrowBalance
           paidAt := some now }

/-- Outcome of `POST /payments/:orderId/confirm`. -/
inductive ConfirmResult where
  | notFound
  | ok (o : Order)
deriving DecidableEq

/-- Models `POST /payments/:orderId/confirm`: 404 when the id is unknown,
otherwise the transition is re-applied unconditionally (no previous-state
check in the source) and the store saved. -/
def confirmPayment (st : Store) (oid now : String) : ConfirmResult × Store :=
  match st.orders.find? (fun o => o.orderId == oid) with
  | none => (ConfirmResult.notFound, st)
  | some o =>
    (ConfirmResult.ok (confirmOrder o now),
      ⟨updateFirst (fun x => x.orderId == oid) (fun x => confirmOrder x now) st.orders⟩)

/-- Models the release handler's token test, the negation of
`!t || t !== order.releaseToken`: the presented token must exist, be
non-empty (a falsy `''` fails the first disjunct) and equal the stored
`releaseToken`. -/
def tokenOk (t : Option String) (o : Order) : Bool :=
  match t with
  | none => false
  | some s => !(s == "") && s == o.releaseToken

/-- The in-place mutation performed by the release handler on the matched
order. -/
def releaseOrder (o : Order) (now : String) : Order :=
  { o with status := releasedStatus, releasedAt := some now }

/-- Outcome of `POST /payments/:orderId/release`. -/
inductive ReleaseResult where
  | notFound
  | forbidden
  | invalidState
  | ok (o : Order)
deriving DecidableEq

/-- Models `POST /payments/:orderId/release`: 404 when the id is unknown;
403 when the token is missing, empty or mismatched (checked first); 400 when
the status has not reached `'Buyer paid…'`; otherwise set the released
status, stamp `releasedAt` and save. -/
def releaseFunds (st : Store) (oid : String) (t : Option String) (now : String) :
    ReleaseResult × Store :=
  match st.orders.find? (fun o => o.orderId == oid) with
  | none => (ReleaseResult.notFound, st)
  | some o =>
    if tokenOk t o then
      if strStartsWith o.status "Buyer paid" then
        (ReleaseResult.ok (releaseOrder o now),
          ⟨updateFirst (fun x => x.orderId == oid) (fun x => releaseOrder x now) st.orders⟩)
      else (ReleaseResult.invalidState, st)
    else (ReleaseResult.forbidden, st)

/-- Models the down-payment derivation of `src/server.js`'s `POST /submit`
(the variant with clamping): `amount = Math.max(0, Number(raw.amount||0))`,
and for a milestone plan either `+(amount*(pct/100)).toFixed(2)` with the
percentage clamped to `[0,100]`, or `Math.max(0, Math.min(amount, downValue))`.
`roundCents` models `toFixed(2)` rounding on the exact rational value. -/
def roundCents (q : ℚ) : ℚ := ((round (q * 100) : ℤ) : ℚ) / 100

/-- Down payment computed by `src/server.js`'s submit handler; `paymentPlan`
and `downType` are the raw body fields (normalized inside, as in the source),
`downValue` and `rawAmount` the already-converted numbers. -/
def submitDownPayment (paymentPlan downType : Option String) (downValue rawAmount : ℚ) : ℚ :=
  if strToLower (jsOr paymentPlan "full") = "milestone" then
    if strToLower (jsOr downType "percent") = "percent" then
      roundCents (max 0 rawAmount * (min 100 (max 0 downValue) / 100))
    else
      max 0 (min (max 0 rawAmount) downValue)
  else 0

/-- Stated from the spec's words: the order-id format `[A-Z]{3}-[0-9]{6}` —
three uppercase letters, a hyphen, six digits. -/
def matchesOrderIdFormat (s : String) : Bool :=
  match s.data with
  | [a, b, c, h, x1, x2, x3, x4, x5, x6] =>
    a.isUpper && b.isUpper && c.isUpper && (h == '-') &&
    x1.isDigit && x2.isDigit && x3.isDigit && x4.isDigit && x5.isDigit && x6.isDigit
  | _ => false

/-- A successful `find?` splits the list at the first match. -/
theorem find?_split {α : Type} {p : α → Bool} :
    ∀ {l : List α} {o : α}, l.find? p = some o →
      ∃ l₁ l₂, l = l₁ ++ o :: l₂ ∧ (∀ x ∈ l₁, p x = false) ∧ p o = true := by
  intro l
  induction l with
  | nil => intro o h; simp [List.find?] at h
  | cons a t ih =>
    intro o h
    rw [List.find?] at h
    cases hpa : p a with
    | true =>
      rw [hpa] at h
      refine ⟨[], t, ?_, by simp, ?_⟩
      · simpa using Option.some.inj h
      · rw [Option.some.inj h] at hpa; exact hpa
    | false =>
      rw [hpa] at h
      obtain ⟨l₁, l₂, rfl, h1, h2⟩ := ih h
      exact ⟨a :: l₁, l₂, rfl, by
        intro x hx
        rcases List.mem_cons.mp hx with rfl | hx
        · exact hpa
        · exact h1 x hx, h2⟩

/-- `updateFirst` rewrites exactly the first match of a split list. -/
theorem updateFirst_of_split {α : Type} {p : α → Bool} (f : α → α) :
    ∀ (l₁ : List α) (o : α) (l₂ : List α),
      (∀ x ∈ l₁, p x = false) → p o = true →
      updateFirst p f (l₁ ++ o :: l₂) = l₁ ++ f o :: l₂ := by
  intro l₁
  induction l₁ with
  | nil => intro o l₂ _ h2; simp [updateFirst, h2]
  | cons a t ih =>
    intro o l₂ h1 h2
    have ha : p a = false := h1 a (by simp)
    simp [updateFirst, ha, ih o l₂ (fun x hx => h1 x (by simp [hx])) h2]

/-- No status ranks above `FundsReleased`. -/
theorem statusRank_le_two (s : String) : statusRank s ≤ 2 := by
  unfold statusRank; split_ifs <;> omega

/-- Any status other than `FundsReleased` ranks at most `PaymentConfirmed`. -/
theorem statusRank_le_one_of_ne {s : String} (h : s ≠ releasedStatus) :
    statusRank s ≤ 1 := by
  unfold statusRank
  split_ifs <;> omega

/-- `parseNumQ` never returns a negative value. -/
theorem parseNumQ_nonneg {l : List Char} {q : ℚ} (h : parseNumQ l = some q) : 0 ≤ q := by
  unfold parseNumQ at h
  split at h
  · cases h; norm_num
  · split at h
    · cases h; positivity
    · split at h
      · exact absurd h (by simp)
      · cases h; positivity
    · exact absurd h (by simp)

/-- `toNum` never returns a negative value. -/
theorem toNum_nonneg (x : Option String) : 0 ≤ toNum x := by
  unfold toNum
  split
  · exact parseNumQ_nonneg (by assumption)
  · norm_num


/-- Literal shape of `buildPaymentPlanSummary` in the buyer / down / percent
configuration, used by several claims. -/
theorem buildPaymentPlanSummary_buyer_down_percent (dv tp : Option String) :
    buildPaymentPlanSummary (some "buyer") (some "down") (some "percent") dv tp
      = if toNum tp = 0 then
          ⟨"Buyer selected down payment — " ++ renderNum (toNum dv) ++
            "% of total (enter total to compute amount)", none, toNum tp⟩
        else
          ⟨"Buyer selected down payment — " ++ renderNum (toNum dv) ++ "% of " ++
            money (toNum tp) ++ " (" ++ money (toNum tp * (toNum dv / 100)) ++ ")",
            some (toNum tp * (toNum dv / 100)), toNum tp⟩ := by
  unfold buildPaymentPlanSummary buildPlanCore
  rw [show strToLower (jsOr (some "buyer") "") = "buyer" from by decide,
      show strToLower (jsOr (some "down") "full") = "down" from by decide,
      show strToLower (jsOr (some "percent") "percent") = "percent" from by decide]
  rw [if_pos rfl, if_neg (by decide), if_pos rfl]

/-- C10: the numeric parser strips all characters but digits and dots, so its
value is always non-negative (a minus sign is discarded: `"-50"` parses to
`50`), and a string that is still not a number after stripping (two dots, as
in `"1.2.3"`) parses to `0`. -/
theorem toNum_strips_signs_and_defaults_to_zero :
    (∀ x : Option String, 0 ≤ toNum x) ∧
    toNum (some "-50") = 50 ∧
    toNum (some "1.2.3") = 0 ∧
    (∀ s : String, parseNumQ (stripNonNumeric s.data) = none → toNum (some s) = 0) := by
  refine ⟨toNum_nonneg, by decide, by decide, ?_⟩
  intro s h
  by_cases hs : s = ""
  · subst hs; exact absurd h (by decide)
  · unfold toNum
    rw [show jsOr (some s) "" = s from by simp [jsOr, hs], h]

theorem toNum_strips_signs_and_defaults_to_zero_w :
    parseNumQ (stripNonNumeric ("1.2.3").data) = none ∧ toNum (some "1.2.3") = 0 :=
  ⟨by decide, toNum_strips_signs_and_defaults_to_zero.2.2.2 "1.2.3" (by decide)⟩

/-- C5: for a buyer on a down-payment plan with a percent deposit, the
calculated deposit is `total * (value/100)` whenever the parsed total is
non-zero, and `null` (with a summary text ending in a note that the total is
needed) when the total is zero or absent. -/
theorem buyer_down_percent_deposit (dv tp : Option String) :
    (toNum tp ≠ 0 →
      (buildPaymentPlanSummary (some "buyer") (some "down") (some "percent") dv tp).calculatedDeposit
        = some (toNum tp * (toNum dv / 100))) ∧
    (toNum tp = 0 →
      (buildPaymentPlanSummary (some "buyer") (some "down") (some "percent") dv tp).calculatedDeposit
        = none ∧
      ∃ pre, (buildPaymentPlanSummary (some "buyer") (some "down") (some "percent") dv tp).text
        = pre ++ "% of total (enter total to compute amount)") := by
  rw [buildPaymentPlanSummary_buyer_down_percent]
  constructor
  · intro h; rw [if_neg h]
  · intro h; rw [if_pos h]
    exact ⟨rfl, ⟨_, rfl⟩⟩

theorem buyer_down_percent_deposit_w :
    toNum (some "1000") ≠ 0 ∧
    (buildPaymentPlanSummary (some "buyer") (some "down") (some "percent") (some "20")
        (some "1000")).calculatedDeposit = some 200 ∧
    toNum none = 0 ∧
    (buildPaymentPlanSummary (some "buyer") (some "down") (some "percent") (some "20")
        none).calculatedDeposit = none := by
  have h1 := (buyer_down_percent_deposit (some "20") (some "1000")).1 (by decide)
  have h2 := ((buyer_down_percent_deposit (some "20") none).2 (by decide)).1
  refine ⟨by decide, ?_, by decide, h2⟩
  rw [h1, show toNum (some "1000") = 1000 from by decide,
      show toNum (some "20") = 20 from by decide]
  norm_num

/-- C9: the calculator yields a null deposit for a buyer on the full-payment
plan (with the fixed full-payment summary) and for a seller on any plan
(with the fixed seller summary). -/
theorem full_and_seller_null_deposit :
    (∀ dt dv tp : Option String,
      (buildPaymentPlanSummary (some "buyer") (some "full") dt dv tp).calculatedDeposit = none ∧
      (buildPaymentPlanSummary (some "buyer") (some "full") dt dv tp).text
        = "Buyer selected full payment") ∧
    (∀ pp dt dv tp : Option String,
      (buildPaymentPlanSummary (some "seller") pp dt dv tp).calculatedDeposit = none ∧
      (buildPaymentPlanSummary (some "seller") pp dt dv tp).text
        = "Seller initiated transaction") := by
  constructor
  · intro dt dv tp
    unfold buildPaymentPlanSummary buildPlanCore
    rw [show strToLower (jsOr (some "buyer") "") = "buyer" from by decide,
        show strToLower (jsOr (some "full") "full") = "full" from by decide]
    rw [if_pos rfl, if_pos rfl]
    exact ⟨rfl, rfl⟩
  · intro pp dt dv tp
    unfold buildPaymentPlanSummary buildPlanCore
    rw [show strToLower (jsOr (some "seller") "") = "seller" from by decide]
    rw [if_neg (by decide)]
    exact ⟨rfl, rfl⟩


/-- A concrete stored order used by several witnesses. -/
def oSample : Order :=
  { orderId := "QJM-482193", releaseToken := "tok-1", createdAt := "2024-01-01T00:00:00Z",
    role := "buyer", source := "ebay", firstName := "Ann", lastName := "Lee",
    email := "ann@example.com", phone := "555-0100", itemDetails := "camera",
    deliveryNotes := "", paymentPlan := "down", depositType := "percent",
    depositValue := 20, totalPrice := 1000, buyerNotes := "",
    calculatedDeposit := some 200, status := awaitingStatus, escrowBalance := 0,
    paidAt := none, releasedAt := none }

/-- C2: a release attempt with a missing, empty or mismatched token fails with
403 and returns the store unchanged, whatever the order's status (the token
test precedes the state test, so no status hypothesis is needed). -/
theorem release_bad_token_forbidden (st : Store) (oid now : String) (t : Option String)
    (o : Order) (hfind : st.orders.find? (fun x => x.orderId == oid) = some o)
    (hbad : t = none ∨ t = some "" ∨ ∀ s, t = some s → s ≠ o.releaseToken) :
    releaseFunds st oid t now = (ReleaseResult.forbidden, st) := by
  have htok : tokenOk t o = false := by
    cases t with
    | none => rfl
    | some s =>
      rcases hbad with h | h | h
      · exact absurd h (by simp)
      · rw [Option.some.inj h]
        simp [tokenOk]
      · have hne : (s == o.releaseToken) = false := beq_eq_false_iff_ne.mpr (h s rfl)
        simp [tokenOk, hne]
  simp [releaseFunds, hfind, htok]

theorem release_bad_token_forbidden_w :
    releaseFunds ⟨[{ oSample with status := releasedStatus }]⟩ "QJM-482193" (some "wrong") "T"
      = (ReleaseResult.forbidden, ⟨[{ oSample with status := releasedStatus }]⟩) :=
  release_bad_token_forbidden _ _ _ _ _ rfl
    (Or.inr (Or.inr (fun s hs => by rw [← Option.some.inj hs]; decide)))

/-- C3: releasing an order whose status has not reached `PaymentConfirmed`
fails with 400 even with the correct token, and releasing an unknown order id
fails with 404; the store is unchanged in both cases. -/
theorem release_wrong_state_errors :
    (∀ (st : Store) (oid : String) (t : Option String) (now : String),
      st.orders.find? (fun x => x.orderId == oid) = none →
      releaseFunds st oid t now = (ReleaseResult.notFound, st)) ∧
    (∀ (st : Store) (oid now : String) (o : Order),
      st.orders.find? (fun x => x.orderId == oid) = some o →
      o.releaseToken ≠ "" →
      (o.status = awaitingStatus ∨ o.status = releasedStatus) →
      releaseFunds st oid (some o.releaseToken) now = (ReleaseResult.invalidState, st)) := by
  constructor
  · intro st oid t now h
    simp [releaseFunds, h]
  · intro st oid now o hfind htok hstat
    have h1 : tokenOk (some o.releaseToken) o = true := by
      simp [tokenOk, htok]
    have h2 : strStartsWith o.status "Buyer paid" = false := by
      rcases hstat with h | h <;> rw [h] <;> decide
    simp [releaseFunds, hfind, h1, h2]

theorem release_wrong_state_errors_w :
    releaseFunds ⟨[]⟩ "QJM-482193" none "T" = (ReleaseResult.notFound, ⟨[]⟩) ∧
    releaseFunds ⟨[oSample]⟩ "QJM-482193" (some "tok-1") "T"
      = (ReleaseResult.invalidState, ⟨[oSample]⟩) :=
  ⟨release_wrong_state_errors.1 ⟨[]⟩ "QJM-482193" none "T" rfl,
   release_wrong_state_errors.2 ⟨[oSample]⟩ "QJM-482193" "T" oSample rfl
     (by decide) (Or.inl rfl)⟩

/-- C4: a submission with a required field absent or blank after trimming is
rejected with a `ValidationError` naming a genuinely missing required field
(the first in the source's check order), and the store is unchanged. -/
theorem createOrder_missing_field (st : Store) (b : SubmitBody) (gid tok now : String)
    (h : ∃ p ∈ reqFields b, missingField p.2 = true) :
    ∃ k v, (k, v) ∈ reqFields b ∧ missingField v = true ∧
      createOrder st b gid tok now
        = (SubmitResult.validationError ("Missing field: " ++ k), st) := by
  have hs : ((reqFields b).find? (fun p => missingField p.2)).isSome := by
    rw [List.find?_isSome]
    obtain ⟨p, hp, hm⟩ := h
    exact ⟨p, hp, hm⟩
  obtain ⟨q, hq⟩ := Option.isSome_iff_exists.mp hs
  have hpq : missingField q.2 = true := by
    have := List.find?_some hq
    simpa using this
  refine ⟨q.1, q.2, List.mem_of_find?_eq_some hq, hpq, ?_⟩
  simp [createOrder, firstMissing, hq]

/-- A submission body with every required field present except `email`. -/
def bMissingEmail : SubmitBody :=
  { role := some "buyer", source := some "ebay", firstName := some "Ann",
    lastName := some "Lee", email := none, phone := some "555-0100",
    itemDetails := none, deliveryNotes := none, paymentPlan := none,
    depositType := none, depositValue := none, totalPrice := none, buyerNotes := none }

theorem createOrder_missing_field_w :
    ∃ k v, (k, v) ∈ reqFields bMissingEmail ∧ missingField v = true ∧
      createOrder ⟨[]⟩ bMissingEmail "AAA-000000" "tok" "now"
        = (SubmitResult.validationError ("Missing field: " ++ k), ⟨[]⟩) :=
  createOrder_missing_field ⟨[]⟩ bMissingEmail "AAA-000000" "tok" "now" (by decide)

/-- Frame condition of the confirm handler: the store splits at the matched
order, which receives the paid status and `paidAt` stamp while its escrow
balance and every other field — and every other order — are untouched. -/
def confirmFrame (st : Store) (oid now : String) (o : Order) : Prop :=
  ∃ l₁ l₂,
    st.orders = l₁ ++ o :: l₂ ∧
    confirmPayment st oid now
      = (ConfirmResult.ok (confirmOrder o now), ⟨l₁ ++ confirmOrder o now :: l₂⟩) ∧
    (confirmOrder o now).status = paidStatus ∧
    (confirmOrder o now).paidAt = some now ∧
    (confirmOrder o now).escrowBalance = o.escrowBalance ∧
    (confirmOrder o now).orderId = o.orderId ∧
    (confirmOrder o now).releaseToken = o.releaseToken ∧
    (confirmOrder o now).createdAt = o.createdAt ∧
    (confirmOrder o now).role = o.role ∧
    (confirmOrder o now).source = o.source ∧
    (confirmOrder o now).firstName = o.firstName ∧
    (confirmOrder o now).lastName = o.lastName ∧
    (confirmOrder o now).email = o.email ∧
    (confirmOrder o now).phone = o.phone ∧
    (confirmOrder o now).itemDetails = o.itemDetails ∧
    (confirmOrder o now).deliveryNotes = o.deliveryNotes ∧
    (confirmOrder o now).paymentPlan = o.paymentPlan ∧
    (confirmOrder o now).depositType = o.depositType ∧
    (confirmOrder o now).depositValue = o.depositValue ∧
    (confirmOrder o now).totalPrice = o.totalPrice ∧
    (confirmOrder o now).buyerNotes = o.buyerNotes ∧
    (confirmOrder o now).calculatedDeposit = o.calculatedDeposit ∧
    (confirmOrder o now).releasedAt = o.releasedAt

/-- C8: `ConfirmPayment` sets the paid status and timestamp of the matched
order, leaves its escrow balance and all other fields unchanged, and leaves
every other order in the store untouched. -/
theorem confirmPayment_frame (st : Store) (oid now : String) (o : Order)
    (hfind : st.orders.find? (fun x => x.orderId == oid) = some o) :
    confirmFrame st oid now o := by
  obtain ⟨l₁, l₂, hsplit, hnomatch, hmatch⟩ := find?_split hfind
  have hupd : updateFirst (fun x => x.orderId == oid) (fun x => confirmOrder x now) st.orders
      = l₁ ++ confirmOrder o now :: l₂ := by
    rw [hsplit]; exact updateFirst_of_split _ l₁ o l₂ hnomatch hmatch
  have hbal : (confirmOrder o now).escrowBalance = o.escrowBalance := by
    show (if o.escrowBalance = 0 then 0 else o.escrowBalance) = o.escrowBalance
    split_ifs with hz
    · exact hz.symm
    · rfl
  refine ⟨l₁, l₂, hsplit, by simp only [confirmPayment, hfind, hupd], ?_⟩
  and_intros <;> first | rfl | exact hbal

theorem confirmPayment_frame_w :
    confirmFrame ⟨[oSample]⟩ "QJM-482193" "2024-02-02T00:00:00Z" oSample :=
  confirmPayment_frame ⟨[oSample]⟩ "QJM-482193" "2024-02-02T00:00:00Z" oSample rfl

/-- C7 (amended): every generated order id is three uppercase letters drawn
from an alphabet without `I`/`O`, a hyphen, and six digits; and the returned
id is unique among previously stored orders exactly when the random draw does
not collide with a stored id (the source performs no collision check). -/
theorem orderId_format_and_conditional_unique :
    (∀ i : Fin 24, (letterAt i).isUpper = true ∧ letterAt i ≠ 'I' ∧ letterAt i ≠ 'O') ∧
    (∀ (l0 l1 l2 : Fin 24) (d0 d1 d2 d3 d4 d5 : Fin 10),
      matchesOrderIdFormat (genOrderId l0 l1 l2 d0 d1 d2 d3 d4 d5) = true) ∧
    (∀ (st : Store) (b : SubmitBody) (gid tok now : String),
      firstMissing b = none →
      gid ∉ st.orders.map (fun o => o.orderId) →
      createOrder st b gid tok now
        = (SubmitResult.ok gid, ⟨mkOrder b gid tok now :: st.orders⟩) ∧
      (mkOrder b gid tok now).orderId = gid ∧
      ∀ o ∈ st.orders, o.orderId ≠ gid) := by
  refine ⟨by decide, ?_, ?_⟩
  · intro l0 l1 l2 d0 d1 d2 d3 d4 d5
    have hU : ∀ i : Fin 24, (letterAt i).isUpper = true := by decide
    have hD : ∀ i : Fin 10, (digitAt i).isDigit = true := by decide
    simp [genOrderId, matchesOrderIdFormat, hU, hD]
  · intro st b gid tok now hval hnew
    refine ⟨by simp [createOrder, hval], rfl, ?_⟩
    intro o ho he
    exact hnew (List.mem_map.mpr ⟨o, ho, he⟩)

/-- A stored order whose id collides with the all-zero random draw. -/
def orderDup : Order := { oSample with orderId := "AAA-000000" }

/-- A fully valid submission body. -/
def bFull : SubmitBody := { bMissingEmail with email := some "ann@example.com" }

/-- C7 counterexample: the source never checks a freshly drawn order id
against the store, so a colliding draw stores and returns a duplicate id. -/
theorem orderId_uniqueness_cex :
    (createOrder ⟨[orderDup]⟩ bFull (genOrderId 0 0 0 0 0 0 0 0 0) "tok-2" "T").2.orders.map
        (fun o => o.orderId) = ["AAA-000000", "AAA-000000"] ∧
    ¬ (["AAA-000000", "AAA-000000"] : List String).Nodup :=
  ⟨by decide, by decide⟩

theorem orderId_format_and_conditional_unique_w :
    firstMissing bFull = none ∧
    "ZZZ-999999" ∉ (⟨[orderDup]⟩ : Store).orders.map (fun o => o.orderId) ∧
    ∀ o ∈ (⟨[orderDup]⟩ : Store).orders, o.orderId ≠ "ZZZ-999999" :=
  ⟨by decide, by decide,
    (orderId_format_and_conditional_unique.2.2 ⟨[orderDup]⟩ bFull "ZZZ-999999" "tok-3" "T"
      (by decide) (by decide)).2.2⟩

/-- C6 counterexample: with a percent value above 100 the part_000 calculator
returns a deposit strictly greater than the known total price. -/
theorem deposit_exceeds_total_cex :
    (buildPaymentPlanSummary (some "buyer") (some "down") (some "percent") (some "200")
        (some "1000")).calculatedDeposit = some 2000 ∧
    (buildPaymentPlanSummary (some "buyer") (some "down") (some "percent") (some "200")
        (some "1000")).totalPrice = 1000 ∧
    (1000 : ℚ) < 2000 := by
  rw [buildPaymentPlanSummary_buyer_down_percent,
      show toNum (some "1000") = 1000 from by decide,
      show toNum (some "200") = 200 from by decide,
      if_neg (by norm_num)]
  refine ⟨?_, rfl, by norm_num⟩
  show some ((1000 : ℚ) * (200 / 100)) = some 2000
  norm_num

/-- C6 (amended): the part_000 calculator applies no clamp, so the percent
deposit stays within a known total only when the percent value is at most
100; the `src/server.js` submit calculation does clamp: an amount-type down
payment lies in `[0, amount]`, and a percent-type one (percentage clamped to
`[0,100]`, then rounded to cents) never exceeds the amount whenever the
amount is a whole number of cents. -/
theorem deposit_clamp_amended :
    (∀ dv tp : Option String, toNum dv ≤ 100 → ∀ d : ℚ,
      (buildPaymentPlanSummary (some "buyer") (some "down") (some "percent") dv
          tp).calculatedDeposit = some d → d ≤ toNum tp) ∧
    (∀ (pp dt : Option String) (v a : ℚ), strToLower (jsOr dt "percent") ≠ "percent" →
      0 ≤ submitDownPayment pp dt v a ∧ submitDownPayment pp dt v a ≤ max 0 a) ∧
    (∀ (pp : Option String) (v a : ℚ), (∃ n : ℤ, (n : ℚ) = 100 * max 0 a) →
      submitDownPayment pp (some "percent") v a ≤ max 0 a) := by
  refine ⟨?_, ?_, ?_⟩
  · intro dv tp hv d hd
    rw [buildPaymentPlanSummary_buyer_down_percent] at hd
    by_cases ht : toNum tp = 0
    · rw [if_pos ht] at hd
      exact absurd hd (by simp)
    · rw [if_neg ht] at hd
      have hd' : d = toNum tp * (toNum dv / 100) := by
        simpa using hd.symm
      have ht0 : 0 ≤ toNum tp := toNum_nonneg tp
      rw [hd']
      nlinarith
  · intro pp dt v a hty
    unfold submitDownPayment
    split_ifs with hplan
    · exact ⟨le_max_left 0 _, max_le (le_max_left 0 a) (min_le_left _ _)⟩
    · exact ⟨le_refl 0, le_max_left 0 a⟩
  · intro pp v a hcent
    obtain ⟨n, hn⟩ := hcent
    unfold submitDownPayment
    rw [show strToLower (jsOr (some "percent") "percent") = "percent" from by decide]
    split_ifs with hplan hpct
    · set A := max 0 a with hA
      have hA0 : (0 : ℚ) ≤ A := le_max_left 0 a
      set p := min 100 (max 0 v) with hp
      have hp0 : (0 : ℚ) ≤ p := le_min (by norm_num) (le_max_left 0 v)
      have hp1 : p ≤ 100 := min_le_left _ _
      have harg : A * (p / 100) * 100 = A * p := by ring
      have hle : A * p ≤ (n : ℚ) := by rw [hn]; nlinarith
      have hfloor : (round (A * (p / 100) * 100) : ℤ) ≤ n := by
        rw [harg, round_eq]
        calc ⌊A * p + 1 / 2⌋ ≤ ⌊(n : ℚ) + 1 / 2⌋ := Int.floor_le_floor (by linarith)
          _ = round ((n : ℚ)) := (round_eq _).symm
          _ = n := round_intCast n
      unfold roundCents
      rw [div_le_iff₀ (by norm_num : (0 : ℚ) < 100)]
      calc ((round (A * (p / 100) * 100) : ℤ) : ℚ) ≤ (n : ℚ) := by exact_mod_cast hfloor
        _ = A * 100 := by rw [hn]; ring
    · exact absurd rfl hpct
    · exact le_max_left 0 a

theorem deposit_clamp_amended_w :
    toNum (some "20") ≤ 100 ∧ (200 : ℚ) ≤ toNum (some "1000") ∧
    (0 ≤ submitDownPayment (some "milestone") (some "amount") 50 30 ∧
      submitDownPayment (some "milestone") (some "amount") 50 30 ≤ max 0 30) ∧
    submitDownPayment (some "milestone") (some "percent") 20 100 ≤ max 0 100 := by
  have h1 := deposit_clamp_amended.1 (some "20") (some "1000") (by decide) 200
  have h2 := deposit_clamp_amended.2.1 (some "milestone") (some "amount") 50 30 (by decide)
  have h3 := deposit_clamp_amended.2.2 (some "milestone") 20 100 ⟨10000, by norm_num⟩
  refine ⟨by decide, ?_, h2, h3⟩
  refine h1 ?_
  rw [buildPaymentPlanSummary_buyer_down_percent,
      show toNum (some "1000") = 1000 from by decide,
      show toNum (some "20") = 20 from by decide,
      if_neg (by norm_num)]
  show some ((1000 : ℚ) * (20 / 100)) = some 200
  norm_num

/-- C1 counterexample: confirming an order whose status is `FundsReleased`
moves it back to `PaymentConfirmed`, a strictly lower rank in the chain. -/
theorem confirm_reverts_released_cex :
    (confirmPayment ⟨[{ oSample with status := releasedStatus }]⟩ "QJM-482193"
        "T").2.orders.map (fun o => o.status) = [paidStatus] ∧
    statusRank paidStatus < statusRank releasedStatus :=
  ⟨by decide, by decide⟩

/-- C1 (amended): `ReleaseFunds` never lowers any stored order's position in
the chain, and `ConfirmPayment` never lowers it provided the matched order is
not already `FundsReleased`; the unconditional re-apply makes the released
case the sole backward transition. -/
theorem transitions_monotone_amended :
    ∀ (st : Store) (oid : String) (t : Option String) (now : String),
    List.Forall₂ (fun a b => statusRank a.status ≤ statusRank b.status)
        st.orders (releaseFunds st oid t now).2.orders ∧
    ((∀ o ∈ st.orders, (o.orderId == oid) = true → o.status ≠ releasedStatus) →
      List.Forall₂ (fun a b => statusRank a.status ≤ statusRank b.status)
        st.orders (confirmPayment st oid now).2.orders) := by
  intro st oid t now
  have hrefl : ∀ l : List Order,
      List.Forall₂ (fun a b => statusRank a.status ≤ statusRank b.status) l l :=
    fun l => List.forall₂_same.mpr (fun x _ => le_refl _)
  constructor
  · cases hfind : st.orders.find? (fun o => o.orderId == oid) with
    | none =>
      simp only [releaseFunds, hfind]
      exact hrefl _
    | some o =>
      obtain ⟨l₁, l₂, hsplit, hnomatch, hmatch⟩ := find?_split hfind
      simp only [releaseFunds, hfind]
      cases htok : tokenOk t o with
      | false =>
        rw [if_neg (by simp)]
        exact hrefl _
      | true =>
        rw [if_pos rfl]
        cases hst : strStartsWith o.status "Buyer paid" with
        | false =>
          rw [if_neg (by simp)]
          exact hrefl _
        | true =>
          rw [if_pos rfl]
          have hupd : updateFirst (fun x => x.orderId == oid)
              (fun x => releaseOrder x now) st.orders
                = l₁ ++ releaseOrder o now :: l₂ := by
            rw [hsplit]; exact updateFirst_of_split _ l₁ o l₂ hnomatch hmatch
          show List.Forall₂ _ st.orders
            (updateFirst (fun x => x.orderId == oid) (fun x => releaseOrder x now) st.orders)
          rw [hupd, hsplit]
          exact List.rel_append (hrefl l₁)
            (List.Forall₂.cons
              (by
                show statusRank o.status ≤ statusRank releasedStatus
                rw [show statusRank releasedStatus = 2 from by decide]
                exact statusRank_le_two _)
              (hrefl l₂))
  · intro hnotrel
    cases hfind : st.orders.find? (fun o => o.orderId == oid) with
    | none =>
      simp only [confirmPayment, hfind]
      exact hrefl _
    | some o =>
      obtain ⟨l₁, l₂, hsplit, hnomatch, hmatch⟩ := find?_split hfind
      have hmem : o ∈ st.orders := by rw [hsplit]; simp
      have hne : o.status ≠ releasedStatus := hnotrel o hmem hmatch
      have hupd : updateFirst (fun x => x.orderId == oid)
          (fun x => confirmOrder x now) st.orders = l₁ ++ confirmOrder o now :: l₂ := by
        rw [hsplit]; exact updateFirst_of_split _ l₁ o l₂ hnomatch hmatch
      simp only [confirmPayment, hfind]
      show List.Forall₂ _ st.orders
        (updateFirst (fun x => x.orderId == oid) (fun x => confirmOrder x now) st.orders)
      rw [hupd, hsplit]
      exact List.rel_append (hrefl l₁)
        (List.Forall₂.cons
          (by
            show statusRank o.status ≤ statusRank paidStatus
            rw [show statusRank paidStatus = 1 from by decide]
            exact statusRank_le_one_of_ne hne)
          (hrefl l₂))

theorem transitions_monotone_amended_w :
    List.Forall₂ (fun a b => statusRank a.status ≤ statusRank b.status)
      (⟨[oSample]⟩ : Store).orders
      (releaseFunds ⟨[oSample]⟩ "QJM-482193" (some "tok-1") "T").2.orders ∧
    List.Forall₂ (fun a b => statusRank a.status ≤ statusRank b.status)
      (⟨[oSample]⟩ : Store).orders
      (confirmPayment ⟨[oSample]⟩ "QJM-482193" "T").2.orders :=
  ⟨(transitions_monotone_amended ⟨[oSample]⟩ "QJM-482193" (some "tok-1") "T").1,
   (transitions_monotone_amended ⟨[oSample]⟩ "QJM-482193" (some "tok-1") "T").2
     (by decide)⟩

end SecureEscrow
